import Mathlib

/-!
Verification development for the graphiti MCP episode-ingestion pipeline.

The definitions below are shallow embeddings of the Python sources:
* mcp_server/services/episode_processor.py  (retrying processor)
* mcp_server/graphiti_mcp_server.py         (per-group queue worker, submit/confirm tools)
* mcp_server/telemetry/neo4j_client.py      (telemetry write path)
* mcp_server/services/group_registry.py     (group registry)
* mcp_server/services/pending_episodes.py   (pending store)
* mcp_server/services/queue_inspection.py   (queue peek tooling)
* mcp_server/services/episode_similarity.py (similarity router)

Machine-level aspects that the claims do not touch (wall-clock datetimes, uuid text,
Neo4j connection verification queries) are modelled by counters or omitted with a note
at the definition concerned.
-/

/-- Body of an episode job: `episode_body` in the source is either a single string or a
list of strings (bulk submission); the processor dispatches on `isinstance(..., list)`. -/
inductive JobBody : Type
  | single (body : String)
  | bulk (bodies : List String)
deriving DecidableEq

/-- An episode job as placed on a group queue (the `episode_data` dict built in
`add_episode` / `continue_episode_ingestion`). -/
structure Job : Type where
  name : String
  body : JobBody
  source : String
  source_description : String
  reference_time : Nat
  uuid : String
  tags : List String
  labels : List String
deriving DecidableEq

/-- Whether the job takes the bulk branch of the processor (`isinstance(episode_body, list)`). -/
def Job.isBulk (j : Job) : Bool :=
  match j.body with
  | .bulk _ => true
  | .single _ => false

/-- Observable events of a worker run, in program order: hand-offs to the external
mutation engine (`add_episode` / `add_episode_bulk`), backoff sleeps, the telemetry
calls issued by the processor, and the worker-loop caller's error log. -/
inductive Event : Type
  | engine (episode : String) (bulk : Bool) (attempt : Nat)
  | backoff (seconds : Nat)
  | telStart (episode : String)
  | telStep (episode step status : String)
  | telError (episode step : String) (retry_context : Nat)
  | telCompletion (episode status : String)
  | workerLogged (episode : String)
deriving DecidableEq

/-- EpisodeProcessingLog node: one upserted row per episode identity
(MERGE keyed on episode_name in record_episode_start). -/
structure LogEntry : Type where
  episode_name : String
  original_name : String
  client_group_id : String
  status : String
  attempt_count : Nat
deriving DecidableEq

/-- EpisodeTracking node: one fresh row per processing attempt, linked to the log
entry by episode_name (the TRACKED_BY relationship). -/
structure TrackingNode : Type where
  episode_name : String
  attempt_number : Nat
  status : String
deriving DecidableEq

/-- ProcessingStep node, linked to the log entry by episode_name (the PROCESSED
relationship). -/
structure StepNode : Type where
  episode_name : String
  step_name : String
  status : String
  data : Option String
deriving DecidableEq

/-- ProcessingError node; retry_context models the context dict
(retry_count entry) passed by the processor. -/
structure ErrorNode : Type where
  episode_name : String
  step_name : String
  error_type : String
  error_message : String
  retry_context : Nat
deriving DecidableEq

/-- The telemetry graph reached through TelemetryNeo4jClient. Relationships
(TRACKED_BY, PROCESSED, HAS_TIMING) are modelled by the episode_name field carried
on each row. -/
structure TelemetryStore : Type where
  logs : List LogEntry
  trackings : List TrackingNode
  steps : List StepNode
  errors : List ErrorNode
  timings : List (String × String)
deriving DecidableEq

/-- Empty telemetry database. -/
def initStore : TelemetryStore := ⟨[], [], [], [], []⟩

/-- Failure oracle for the telemetry database: whether the k-th query issued by the
client commits or raises inside the driver. -/
def DbOracle : Type := Nat → Bool

/-- Oracle for a healthy telemetry database. -/
def dbOk : DbOracle := fun _ => true

/-- Oracle for a telemetry database whose every write fails. -/
def dbDown : DbOracle := fun _ => false

/-- Telemetry client state: the store plus a counter of queries issued so far
(used to index the failure oracle). -/
structure PState : Type where
  store : TelemetryStore
  clock : Nat
deriving DecidableEq

/-- Fresh telemetry client state over an empty store. -/
def initPState : PState := ⟨initStore, 0⟩

/-- Raw driver call inside run_query's try block: commits the effect and returns rows,
or raises. -/
def sessionRun {ρ : Type} (db : DbOracle) (s : PState)
    (eff : TelemetryStore → TelemetryStore × ρ) : Except String (TelemetryStore × ρ) :=
  if db s.clock then .ok (eff s.store) else .error "Neo4j transaction failure"

/-- TelemetryNeo4jClient.run_query: every exception from the driver is caught, logged,
and turned into a None result; the caller never sees a raise. -/
def runQuery {ρ : Type} (db : DbOracle) (s : PState)
    (eff : TelemetryStore → TelemetryStore × ρ) : PState × Option ρ :=
  match sessionRun db s eff with
  | .ok (st, rows) => (⟨st, s.clock + 1⟩, some rows)
  | .error _e => (⟨s.store, s.clock + 1⟩, none)

/-- Lookup of the log entry MERGEd on (episode_name, group_id='graphiti_logs'). -/
def findLog (st : TelemetryStore) (episode_name : String) : Option LogEntry :=
  st.logs.find? (fun l => l.episode_name == episode_name)

/-- TelemetryNeo4jClient.record_episode_start: MERGE of the log entry (ON CREATE
attempt_count = 1, ON MATCH attempt_count + 1) followed by CREATE of a fresh
EpisodeTracking row for this attempt. The connection-verification query of
ensure_verified touches only TelemetryTest nodes and is not modelled. -/
def record_episode_start (db : DbOracle) (s : PState)
    (episode_name original_name group_id : String) : PState × Option Nat :=
  let q1 := runQuery db s (fun st =>
    match findLog st episode_name with
    | some l =>
        ({ st with logs := st.logs.map (fun e =>
             if e.episode_name == episode_name
             then { e with attempt_count := e.attempt_count + 1 } else e) },
         l.attempt_count + 1)
    | none =>
        ({ st with logs := st.logs ++
             [⟨episode_name, original_name, group_id, "started", 1⟩] }, 1))
  let s1 := q1.1
  let attempt_number := match q1.2 with | some n => n | none => 1
  let q2 := runQuery db s1 (fun st =>
    ({ st with trackings := st.trackings ++
         [⟨episode_name, attempt_number, "in_progress"⟩] }, ()))
  (q2.1, q1.2)

/-- TelemetryNeo4jClient.record_processing_step: ensure the log entry exists; for a
non-started status first try to close an open step of this name, else create a new
step row. The step_id SET query and the PROCESSED MERGE are modelled as counter ticks
because linkage is carried by the episode_name field on the row. -/
def record_processing_step (db : DbOracle) (s : PState)
    (episode_name step_name status : String) (data : Option String) : PState × Option Unit :=
  let q1 := runQuery db s (fun st =>
    match findLog st episode_name with
    | some _ => (st, ())
    | none => ({ st with logs := st.logs ++
        [⟨episode_name, episode_name, "", "in_progress", 0⟩] }, ()))
  match q1.2 with
  | none => (q1.1, none)
  | some _ =>
    let afterUpdate : PState × Bool :=
      if status ≠ "started" then
        let q2 := runQuery db q1.1 (fun st =>
          let hit := st.steps.any (fun t =>
            t.episode_name == episode_name && t.step_name == step_name &&
            t.status == "started")
          (if hit then
             { st with steps := st.steps.map (fun t =>
                 if t.episode_name == episode_name && t.step_name == step_name &&
                    t.status == "started"
                 then { t with status := status, data := data } else t) }
           else st, hit))
        (q2.1, match q2.2 with | some true => true | _ => false)
      else (q1.1, false)
    if afterUpdate.2 then (afterUpdate.1, some ())
    else
      let q3 := runQuery db afterUpdate.1 (fun st =>
        ({ st with steps := st.steps ++ [⟨episode_name, step_name, status, data⟩] }, ()))
      match q3.2 with
      | none => (q3.1, none)
      | some _ =>
        let q4 := runQuery db q3.1 (fun st => (st, ()))
        let q5 := runQuery db q4.1 (fun st => (st, ()))
        (q5.1, q5.2)

/-- TelemetryNeo4jClient.record_error: read checks for the log entry and the step
(auto-creating the step when the log exists but the step does not), then CREATE of the
ProcessingError row. The source then fails to extract a node id from the returned
property dict (no elementId/identity key) and returns None before the GENERATED_ERROR
MERGE, so no linking query runs. -/
def record_error (db : DbOracle) (s : PState)
    (episode_name step_name error_type error_message : String)
    (retry_context : Nat) : PState × Option Unit :=
  let q1 := runQuery db s (fun st => (st, (findLog st episode_name).isSome))
  let logFound := match q1.2 with | some b => b | none => false
  let q2 := runQuery db q1.1 (fun st =>
    (st, st.steps.any (fun t =>
      t.episode_name == episode_name && t.step_name == step_name)))
  let stepFound := match q2.2 with | some b => b | none => false
  let s2 :=
    if !stepFound && logFound then
      (record_processing_step db q2.1 episode_name step_name "error"
        (some "auto_created")).1
    else q2.1
  let q3 := runQuery db s2 (fun st =>
    ({ st with errors := st.errors ++
        [⟨episode_name, step_name, error_type, error_message, retry_context⟩] }, ()))
  match q3.2 with
  | none => (q3.1, none)
  | some _ => (q3.1, none)

/-- TelemetryNeo4jClient.record_episode_completion: close the log entry (status and
timing fields), then the best-effort analytics block: EpisodeTiming CREATE, the
FOLLOWED_BY sequencing query (a counter tick here; it only adds relationships), and
the EpisodeTracking status update. -/
def record_episode_completion (db : DbOracle) (s : PState)
    (episode_name status : String) : PState × Option Unit :=
  let q1 := runQuery db s (fun st =>
    let found := (findLog st episode_name).isSome
    (if found then
       { st with logs := st.logs.map (fun e =>
           if e.episode_name == episode_name then { e with status := status } else e) }
     else st, found))
  match q1.2 with
  | none => (q1.1, none)
  | some false => (q1.1, none)
  | some true =>
    let q2 := runQuery db q1.1 (fun st =>
      ({ st with timings := st.timings ++ [(episode_name, status)] }, ()))
    let q3 := runQuery db q2.1 (fun st => (st, ()))
    let q4 := runQuery db q3.1 (fun st =>
      ({ st with trackings := st.trackings.map (fun t =>
           if t.episode_name == episode_name && t.status == "in_progress"
           then { t with status := status } else t) }, ()))
    (q4.1, some ())

/-- Core retry loop of services/episode_processor.process_episode_queue. `engineFails`
is the number of leading attempts on which the engine call raises; `r` is retry_count
and `remaining` counts the loop iterations still allowed (max_retries - retry_count;
the processor enters with remaining = 5, r = 0). Each iteration records the step
start, hands the job to the engine, and on failure records the error, sleeps
3 ^ retry_count seconds, and after the 5th failure records the failed completion and
re-raises (outcome false). On success it records the success step and the completed
completion (outcome true). -/
def processLoop (tel : Bool) (db : DbOracle) (engineFails : Nat) (j : Job) :
    Nat → Nat → PState → List Event × PState × Bool
  | 0, _, s => ([], s, true)
  | rem + 1, r, s =>
    let s1 := if tel then (record_processing_step db s j.name "ingestion" "started" none).1 else s
    let evStep : List Event := if tel then [Event.telStep j.name "ingestion" "started"] else []
    if r < engineFails then
      let s2 := if tel then (record_error db s1 j.name "ingestion" "Exception" "engine failure" r).1 else s1
      let evErr : List Event := if tel then [Event.telError j.name "ingestion" r] else []
      if 5 ≤ r + 1 then
        let s3 := if tel then (record_episode_completion db s2 j.name "failed").1 else s2
        let evComp : List Event := if tel then [Event.telCompletion j.name "failed"] else []
        (evStep ++ [Event.engine j.name j.isBulk r] ++ evErr ++
           [Event.backoff (3 ^ (r + 1))] ++ evComp, s3, false)
      else
        let next := processLoop tel db engineFails j rem (r + 1) s2
        (evStep ++ [Event.engine j.name j.isBulk r] ++ evErr ++
           [Event.backoff (3 ^ (r + 1))] ++ next.1, next.2)
    else
      let s2 := if tel then (record_processing_step db s1 j.name "ingestion" "success" none).1 else s1
      let s3 := if tel then (record_episode_completion db s2 j.name "completed").1 else s2
      let evOk : List Event :=
        if tel then [Event.telStep j.name "ingestion" "success",
                     Event.telCompletion j.name "completed"] else []
      (evStep ++ [Event.engine j.name j.isBulk r] ++ evOk, s3, true)

/-- Pure projection of processLoop: the event trace and the raised/not-raised outcome,
which depend only on the failure count, never on the telemetry store or its database. -/
def loopSpec (tel : Bool) (engineFails : Nat) (j : Job) :
    Nat → Nat → List Event × Bool
  | 0, _ => ([], true)
  | rem + 1, r =>
    let evStep : List Event := if tel then [Event.telStep j.name "ingestion" "started"] else []
    if r < engineFails then
      let evErr : List Event := if tel then [Event.telError j.name "ingestion" r] else []
      if 5 ≤ r + 1 then
        let evComp : List Event := if tel then [Event.telCompletion j.name "failed"] else []
        (evStep ++ [Event.engine j.name j.isBulk r] ++ evErr ++
           [Event.backoff (3 ^ (r + 1))] ++ evComp, false)
      else
        let next := loopSpec tel engineFails j rem (r + 1)
        (evStep ++ [Event.engine j.name j.isBulk r] ++ evErr ++
           [Event.backoff (3 ^ (r + 1))] ++ next.1, next.2)
    else
      let evOk : List Event :=
        if tel then [Event.telStep j.name "ingestion" "success",
                     Event.telCompletion j.name "completed"] else []
      (evStep ++ [Event.engine j.name j.isBulk r] ++ evOk, true)

/-- services/episode_processor.process_episode_queue: record the episode start (when a
telemetry client is configured), then run the retry loop with max_retries = 5 from
retry_count = 0. -/
def process_episode_svc (tel : Bool) (db : DbOracle) (engineFails : Nat)
    (group_id : String) (j : Job) (s : PState) : List Event × PState × Bool :=
  let s0 := if tel then (record_episode_start db s j.name j.name group_id).1 else s
  let run := processLoop tel db engineFails j 5 0 s0
  ((if tel then [Event.telStart j.name] else []) ++ run.1, run.2)

/-- Per-job body of the worker loop in graphiti_mcp_server.process_episode_queue: the
processor's terminal failure propagates to the try/except around the job, where the
worker logs it (the job is not re-queued). -/
def worker_handle_job (tel : Bool) (db : DbOracle) (engineFails : Nat)
    (group_id : String) (j : Job) (s : PState) : List Event × PState :=
  let run := process_episode_svc tel db engineFails group_id j s
  if run.2.2 then (run.1, run.2.1)
  else (run.1 ++ [Event.workerLogged j.name], run.2.1)

/-- The worker loop of graphiti_mcp_server.process_episode_queue draining the jobs
currently enqueued for its group, in queue order; on an empty queue the loop suspends
in queue.get() and emits nothing further. -/
def worker_drain (tel : Bool) (db : DbOracle) (engineFails : Job → Nat)
    (group_id : String) : List Job → PState → List Event × PState
  | [], s => ([], s)
  | j :: rest, s =>
    let first := worker_handle_job tel db (engineFails j) group_id j s
    let later := worker_drain tel db engineFails group_id rest first.2
    (first.1 ++ later.1, later.2)

/-- Names of the episodes handed to the mutation engine, in trace order. -/
def engineSeq (trace : List Event) : List String :=
  trace.filterMap (fun e =>
    match e with
    | Event.engine n _ _ => some n
    | _ => none)

/-- Number of engine attempts a job with the given failure count receives:
one per failure plus the success, capped at 5 total. -/
def attemptTally (engineFails : Nat) : Nat := min (engineFails + 1) 5

/-- Engine hand-off sequence the worker produces for a list of enqueued jobs. -/
def jobSeq (engineFails : Job → Nat) (jobs : List Job) : List String :=
  jobs.flatMap (fun j => List.replicate (attemptTally (engineFails j)) j.name)

/-- State of one group's queue and its queue_workers flag. -/
structure GroupWorkerState : Type where
  queue : List Job
  workerActive : Bool
deriving DecidableEq

/-- One pass of the worker loop at its dequeue point
(`episode_data = await episode_queues[group_id].get()`): on an empty queue the get
suspends — the loop does not exit, and the finally block that clears
queue_workers[group_id] runs only on cancellation or an internal crash, neither of
which is triggered by emptiness. On a non-empty queue the head is removed and handed
to the processor. -/
def workerDequeueStep (s : GroupWorkerState) : GroupWorkerState × Option Job :=
  match s.queue with
  | [] => (s, none)
  | j :: rest => ({ s with queue := rest }, some j)

/-- Python str.isalpha for one character, modelled exactly on the code points the
development evaluates: the ASCII range and the Latin-1 block, where the alphabetic
characters are A-Z, a-z and U+00C0-U+00FF minus the two operators U+00D7 (multiply)
and U+00F7 (divide). Code points U+00AA-U+00BF (ordinal indicators, superscripts,
fractions) are not used by any theorem below. -/
def pyIsAlpha (c : Char) : Bool :=
  c.isAlpha ||
    (0xC0 ≤ c.toNat && c.toNat ≤ 0xFF && c.toNat ≠ 0xD7 && c.toNat ≠ 0xF7)

/-- Python str.isalnum for one character, on the same modelled range: alphabetic or an
ASCII decimal digit. -/
def pyIsAlnum (c : Char) : Bool :=
  pyIsAlpha c || c.isDigit

/-- GroupRegistry._is_valid_group_id: at least 3 characters, first character
str.isalpha, every character str.isalnum or an underscore or a hyphen. -/
def is_valid_group_id (group_id : String) : Bool :=
  match group_id.data with
  | [] => false
  | c :: _ =>
    if group_id.data.length < 3 then false
    else pyIsAlpha c &&
      group_id.data.all (fun d => pyIsAlnum d || d == '_' || d == '-')

/-- Acceptance by the regular expression of the specification,
written from the spec text: a string matches when it starts with an ASCII
letter followed by at least two characters drawn from ASCII letters, digits,
underscore and hyphen. -/
def spec_regex_accepts (s : String) : Bool :=
  match s.data with
  | [] => false
  | c :: rest =>
    (c.isUpper || c.isLower) && decide (2 ≤ rest.length) &&
      rest.all (fun d => d.isUpper || d.isLower || d.isDigit || d == '_' || d == '-')

/-- PROTECTED_GROUPS constant of services/group_registry.py. -/
def PROTECTED_GROUPS : List String := ["system", "graphiti_logs", "admin", "graphiti_system"]

/-- GroupRegistry.is_protected_group: membership in the reserved set. -/
def is_protected_group (group_id : String) : Bool := PROTECTED_GROUPS.contains group_id

/-- Registry row for one group (metadata keys beyond the description are carried
verbatim by the source and not needed by any claim). -/
structure GroupRec : Type where
  group_id : String
  description : String
  creator : String
deriving DecidableEq

/-- Registered groups, in registration order (the MERGE key is group_id, unique by
constraint). -/
abbrev Registry : Type := List GroupRec

/-- GroupRegistry.get_group's lookup of the registry node, keyed on the unique
group_id (usage statistics are computed from the content partition and do not affect
registry state). -/
def findGroup : Registry → String → Option GroupRec
  | [], _ => none
  | g :: rest, group_id =>
    if g.group_id = group_id then some g else findGroup rest group_id

/-- GroupRegistry.register_group: raises ValueError for an invalid or protected id
before any mutation; otherwise MERGE ON CREATE inserts the row, ON MATCH updates the
description only. -/
def register_group (reg : Registry) (group_id description creator : String) :
    Registry × Except String Unit :=
  if !is_valid_group_id group_id then
    (reg, .error ("Invalid group_id format: " ++ group_id))
  else if is_protected_group group_id then
    (reg, .error ("Cannot modify protected group: " ++ group_id))
  else
    match findGroup reg group_id with
    | some _ =>
      (List.map (fun g => if g.group_id == group_id
         then { g with description := description } else g) reg, .ok ())
    | none => (reg ++ [⟨group_id, description, creator⟩], .ok ())

/-- GroupRegistry.delete_group: raises ValueError for a protected id before any
mutation; otherwise deletes the registry row (never the partition's content) and
reports whether a row was deleted. -/
def delete_group (reg : Registry) (group_id : String) : Registry × Except String Bool :=
  if is_protected_group group_id then
    (reg, .error ("Cannot delete protected group: " ++ group_id))
  else
    (List.filter (fun g => g.group_id ≠ group_id) reg,
     .ok (findGroup reg group_id).isSome)

/-- A staged pending episode (services/pending_episodes.PendingEpisode); times are
modelled as naturals on one clock. -/
structure PendingEpisode : Type where
  name : String
  episode_body : String
  source : String
  source_description : String
  created_at : Nat
  expires_at : Nat
  uuid : String
deriving DecidableEq

/-- Server-side mutable state touched by the confirmation tool: the pending store
(file per pending_id), the per-group queues and spawned-worker list
(episode_queues and the created asyncio tasks), and the group registry. -/
structure ServerState : Type where
  pending : List (String × PendingEpisode)
  queues : List (String × List Job)
  workers : List String
  registry : Registry
deriving DecidableEq

/-- Keyed lookup in the pending store (one JSON file per pending_id). -/
def lookupPending : List (String × PendingEpisode) → String → Option PendingEpisode
  | [], _ => none
  | q :: rest, pending_id =>
    if q.1 = pending_id then some q.2 else lookupPending rest pending_id

/-- PendingEpisodesStorage.get_pending_episode: not-found gives None; an expired
record is deleted and reported as None; otherwise the record is returned with the
store untouched. -/
def get_pending_episode (now : Nat) (st : ServerState) (pending_id : String) :
    Option PendingEpisode × ServerState :=
  match lookupPending st.pending pending_id with
  | none => (none, st)
  | some p =>
    if p.expires_at < now then
      (none, { st with pending := st.pending.filter (fun r => r.1 ≠ pending_id) })
    else (some p, st)

/-- Queue lookup in the episode_queues dict. -/
def lookupQueue : List (String × List Job) → String → Option (List Job)
  | [], _ => none
  | q :: rest, group_id =>
    if q.1 = group_id then some q.2 else lookupQueue rest group_id

/-- Enqueue onto an existing group queue (asyncio.Queue.put appends). -/
def putQueue : List (String × List Job) → String → Job → List (String × List Job)
  | [], _, _ => []
  | q :: rest, group_id, j =>
    (if q.1 = group_id then (q.1, q.2 ++ [j]) else q) :: putQueue rest group_id j

/-- Episode job built from a pending record in continue_episode_ingestion
(reference_time is the pending record's creation time). -/
def pendingJob (p : PendingEpisode) : Job :=
  { name := p.name, body := .single p.episode_body, source := p.source,
    source_description := p.source_description, reference_time := p.created_at,
    uuid := p.uuid, tags := [], labels := [] }

/-- Tool response of the MCP tools: a success message or an error message. -/
inductive ToolResponse : Type
  | success (msg : String)
  | error (msg : String)
deriving DecidableEq

/-- Whether a tool response is the error form. -/
def ToolResponse.isError : ToolResponse → Bool
  | .success _ => false
  | .error _ => true

/-- graphiti_mcp_server.continue_episode_ingestion: resolve the pending record,
validate the group id format, create the queue and spawn the worker for an unseen
group, register the group if it is not in the registry (a ValueError raised there for
a protected id is caught by the tool's outer try/except and reported as an error,
leaving the pending record in place), then enqueue the job and delete the pending
record. -/
def continue_episode_ingestion (now : Nat) (st : ServerState)
    (pending_id group_id : String) : ToolResponse × ServerState :=
  let looked := get_pending_episode now st pending_id
  match looked.1 with
  | none => (.error ("Pending episode not found: " ++ pending_id), looked.2)
  | some p =>
    if !is_valid_group_id group_id then
      (.error ("Invalid group_id format: " ++ group_id), looked.2)
    else
      let st1 := looked.2
      let st2 :=
        if (lookupQueue st1.queues group_id).isSome then st1
        else { st1 with queues := st1.queues ++ [(group_id, [])],
                        workers := st1.workers ++ [group_id] }
      let regStep : Registry × Except String Unit :=
        match findGroup st2.registry group_id with
        | some _ => (st2.registry, .ok ())
        | none => register_group st2.registry group_id ("Group for " ++ p.name) "user"
      match regStep.2 with
      | .error e => (.error ("Error queuing episode task: " ++ e), st2)
      | .ok _ =>
        let st3 := { st2 with registry := regStep.1 }
        let st4 := { st3 with queues := putQueue st3.queues group_id (pendingJob p) }
        let st5 := { st4 with pending := st4.pending.filter (fun r => r.1 ≠ pending_id) }
        (.success ("Episode added to queue for processing in group: " ++ group_id), st5)

/-- Result of the queue inspection tool. -/
inductive InspectResult : Type
  | error (msg : String)
  | job (j : Job)
deriving DecidableEq

/-- services/queue_inspection.get_job_by_index, translated with its actual control
flow: unknown group and empty queue return error dictionaries; an out-of-range index
returns the invalid-index error — and the entire peek body (drain into a temporary
queue, restore, return items[index]) is indented inside that out-of-range branch after
its return statement, so for a valid index the function falls off the end and returns
Python None, modelled as Option none. -/
def get_job_by_index (queues : List (String × List Job)) (group_id : String)
    (index : Int) : Option InspectResult :=
  match lookupQueue queues group_id with
  | none => some (.error ("No queue found for group_id: " ++ group_id))
  | some q =>
    if q.isEmpty then some (.error "Queue is empty")
    else if index < 0 || (q.length : Int) ≤ index then
      some (.error "Invalid index")
    else
      none

/-- Row returned by the similarity query of services/episode_similarity.py: an
Episodic node with its stored partition id and the cosine similarity the query
computed against the submitted content. -/
structure EpRec : Type where
  name : String
  content : String
  group_id : String
  similarity : ℚ
deriving DecidableEq

/-- MIN_SIMILARITY_SCORE constant (0.5). -/
def MIN_SIMILARITY_SCORE : ℚ := 1 / 2

/-- MAX_RESULTS_PER_GROUP constant (3 sample episodes per group). -/
def MAX_RESULTS_PER_GROUP : Nat := 3

/-- MAX_GROUPS constant (top 5 group suggestions). -/
def MAX_GROUPS : Nat := 5

/-- Insertion into a list kept in descending order of score. -/
def insertDescBy {α : Type} (score : α → ℚ) (x : α) : List α → List α
  | [] => [x]
  | y :: ys => if score y < score x then x :: y :: ys else y :: insertDescBy score x ys

/-- Insertion sort descending by score (models ORDER BY ... DESC and Python sorted
with reverse=True). -/
def sortDescBy {α : Type} (score : α → ℚ) (l : List α) : List α :=
  l.foldr (insertDescBy score) []

/-- Rows produced by the similarity Cypher query: episodes above the similarity
floor, ordered by similarity descending, LIMIT 100. -/
def queryMatches (eps : List EpRec) : List EpRec :=
  (sortDescBy (fun e => e.similarity)
    (eps.filter (fun e => MIN_SIMILARITY_SCORE < e.similarity))).take 100

/-- Rows surviving the result loop's guard (records whose node has no group_id are
skipped). -/
def routedMatches (eps : List EpRec) : List EpRec :=
  (queryMatches eps).filter (fun e => e.group_id ≠ "")

/-- First-occurrence deduplication, mirroring insertion order of the Python
group_scores dict keys. -/
def dedupFirst : List String → List String
  | [] => []
  | g :: rest => g :: dedupFirst (rest.filter (fun h => h ≠ g))
termination_by l => l.length
decreasing_by
  simp only [List.length_cons]
  exact Nat.lt_succ_of_le (List.length_filter_le _ _)

/-- Aggregate score of one partition: the sum of the similarities of its surviving
matches (group_scores[group_id] accumulation). -/
def group_score (eps : List EpRec) (g : String) : ℚ :=
  (((routedMatches eps).filter (fun e => e.group_id == g)).map (fun e => e.similarity)).sum

/-- Sample entry kept per match (name, truncated content, similarity). -/
def sampleOf (e : EpRec) : String × String × ℚ :=
  (e.name, e.content.take 200 ++ "...", e.similarity)

/-- Sample episodes retained for one partition: the first MAX_RESULTS_PER_GROUP
surviving matches of that partition, in result order. -/
def group_samples (eps : List EpRec) (g : String) : List (String × String × ℚ) :=
  (((routedMatches eps).filter (fun e => e.group_id == g)).take MAX_RESULTS_PER_GROUP).map sampleOf

/-- Partitions with their aggregate scores, sorted descending by score (Python
sorted(group_scores.items(), key=score, reverse=True)). -/
def sorted_groups (eps : List EpRec) : List (String × ℚ) :=
  sortDescBy (fun p => p.2)
    ((dedupFirst ((routedMatches eps).map (fun e => e.group_id))).map
      (fun g => (g, group_score eps g)))

/-- One entry of the similar_groups result list. -/
structure GroupSuggestion : Type where
  group_id : String
  score : ℚ
  description : String
  sample_episodes : List (String × String × ℚ)
deriving DecidableEq

/-- Description lookup of _get_group_descriptions: the registry row's description, or
the empty string when the group is not registered (or no registry exists). This query
is read-only. -/
def group_description (reg : Registry) (g : String) : String :=
  match findGroup reg g with
  | some r => r.description
  | none => ""

/-- The similar_groups list: top MAX_GROUPS partitions by aggregate score with their
descriptions and sample episodes. -/
def similar_groups (reg : Registry) (eps : List EpRec) : List GroupSuggestion :=
  ((sorted_groups eps).take MAX_GROUPS).map
    (fun p => ⟨p.1, p.2, group_description reg p.1, group_samples eps p.1⟩)

/-- Python regex word characters for the fallback id synthesis (alphanumeric or
underscore, on the modelled character range). -/
def wordChar (c : Char) : Bool := pyIsAlnum c || c == '_'

/-- Maximal runs of word characters (re.findall of word runs); the accumulator holds
the current run reversed. -/
def splitWordsAux : List Char → List Char → List (List Char)
  | [], acc => if acc.isEmpty then [] else [acc.reverse]
  | c :: rest, acc =>
    if wordChar c then splitWordsAux rest (c :: acc)
    else if acc.isEmpty then splitWordsAux rest []
    else acc.reverse :: splitWordsAux rest []

/-- episode_similarity.generate_group_id_suggestion: first three lower-cased words of
the name joined by underscores, forced to start with a letter and padded to a minimum
length; a name without usable words falls back to a fixed id. -/
def generate_group_id_suggestion (name _content : String) : String :=
  let words := (splitWordsAux name.toLower.data []).take 3
  match words with
  | [] => "new_content_group"
  | w :: ws =>
    let gid := String.intercalate "_" ((w :: ws).map (fun cs => String.mk cs))
    let gid2 :=
      match gid.data with
      | [] => gid
      | c :: _ => if !pyIsAlpha c then "g_" ++ gid else gid
    if gid2.length < 3 then gid2 ++ "_group" else gid2

/-- SimilarityResult named tuple of episode_similarity.py. -/
structure SimilarityResult : Type where
  suggested_group_id : String
  similar_groups : List GroupSuggestion
  similar_episodes : List EpRec
  auto_assign : Bool
  confidence : ℚ
deriving DecidableEq

/-- episode_similarity.find_similar_episodes: aggregate the query's matches by
partition, suggest the top partition (or synthesize a fresh id when no partition
survives the floor), and report the top partition's aggregate score as the
confidence. -/
def find_similar_episodes (reg : Registry) (eps : List EpRec)
    (name content : String) (confidence_threshold : ℚ) : SimilarityResult :=
  let groups := similar_groups reg eps
  match groups with
  | [] =>
    { suggested_group_id := generate_group_id_suggestion name content,
      similar_groups := [], similar_episodes := (routedMatches eps).take 10,
      auto_assign := false, confidence := 0 }
  | g :: gs =>
    { suggested_group_id := g.group_id, similar_groups := g :: gs,
      similar_episodes := (routedMatches eps).take 10,
      auto_assign := decide (confidence_threshold ≤ g.score),
      confidence := g.score }

/-- State-passing form of find_similar_episodes over the graph store (the prior
episodes) and the registry: every query the function runs (the similarity MATCH, the
label check and the description MATCH) is read-only, so both stores pass through
unchanged. -/
def find_similar_episodes_st (reg : Registry) (eps : List EpRec)
    (name content : String) (confidence_threshold : ℚ) :
    SimilarityResult × Registry × List EpRec :=
  (find_similar_episodes reg eps name content confidence_threshold, reg, eps)

/-- Sample job used by closed witness statements. -/
def demoJob : Job :=
  { name := "ep-demo", body := .single "hello", source := "text",
    source_description := "", reference_time := 0, uuid := "u-demo",
    tags := [], labels := [] }

/-- Pointwise congruence for List.all. -/
lemma all_congr_mem {α : Type} (l : List α) (f g : α → Bool)
    (h : ∀ x ∈ l, f x = g x) : l.all f = l.all g := by
  induction l with
  | nil => rfl
  | cons a t ih =>
    simp only [List.all_cons, h a (by simp)]
    rw [ih (fun x hx => h x (by simp [hx]))]

/-- Python str.isalpha agrees with the ASCII letter test on ASCII code points. -/
lemma pyIsAlpha_ascii (c : Char) (h : c.toNat < 128) : pyIsAlpha c = c.isAlpha := by
  have h1 : decide (0xC0 ≤ c.toNat) = false := decide_eq_false (by omega)
  simp [pyIsAlpha, h1]

/-- The per-character class of the validator agrees with the regex character class on
ASCII code points. -/
lemma charClass_ascii (d : Char) (h : d.toNat < 128) :
    (pyIsAlnum d || d == '_' || d == '-') =
      (d.isUpper || d.isLower || d.isDigit || d == '_' || d == '-') := by
  simp [pyIsAlnum, pyIsAlpha_ascii d h, Char.isAlpha, Bool.or_assoc]

/-- Claim C2 counterexample: at a dequeue attempt that observes the queue empty
(get_job returns nothing), the worker flag remains set — the worker has not
terminated, contradicting the claim that it terminates exactly upon observing an
empty queue. -/
theorem C2_counterexample :
    (workerDequeueStep ⟨[], true⟩).2 = none
    ∧ ¬ ((workerDequeueStep ⟨[], true⟩).1.workerActive = false) := by
  decide

/-- Claim C2 (amended): the worker never terminates of its own accord — an
empty-queue dequeue attempt suspends with the worker still active and the state
unchanged, and a job enqueued at that moment is the very next one dequeued by the
still-active worker, so no job is stranded. -/
theorem C2_worker_never_self_terminates (q : List Job) (a : Bool) (j : Job)
    (h : q = []) :
    (workerDequeueStep ⟨q, a⟩).1.workerActive = a
    ∧ workerDequeueStep ⟨q, a⟩ = (⟨q, a⟩, none)
    ∧ workerDequeueStep ⟨q ++ [j], a⟩ = (⟨[], a⟩, some j) := by
  subst h
  refine ⟨rfl, rfl, rfl⟩

/-- Witness for C2_worker_never_self_terminates at the empty queue and a concrete job. -/
theorem C2_worker_never_self_terminates_witness :
    (workerDequeueStep ⟨[], true⟩).1.workerActive = true
    ∧ workerDequeueStep ⟨[], true⟩ = (⟨[], true⟩, none)
    ∧ workerDequeueStep ⟨[] ++ [demoJob], true⟩ = (⟨[], true⟩, some demoJob) :=
  C2_worker_never_self_terminates [] true demoJob rfl

/-- Claim C6: the inspection peek never returns the job. On the failing input — a
one-element queue for group demo and the in-range index 0 — the function returns
Python None (the peek body is dead code inside the out-of-range branch), while an
out-of-range index and an unknown group do return the documented error dictionaries. -/
theorem C6_peek_dead_code :
    get_job_by_index [("demo", [demoJob])] "demo" 0 = none
    ∧ get_job_by_index [("demo", [demoJob])] "demo" 1 =
        some (.error "Invalid index")
    ∧ get_job_by_index [("demo", [demoJob])] "demo" (-1) =
        some (.error "Invalid index")
    ∧ get_job_by_index [("demo", [demoJob])] "other" 0 =
        some (.error "No queue found for group_id: other") := by
  decide

/-- Claim C8 counterexample: the validator accepts a three-letter string of Latin-1
letters because Python's str.isalpha/str.isalnum are Unicode-aware, while the
specification's regex only admits ASCII characters. -/
theorem C8_counterexample :
    is_valid_group_id "ééé" = true ∧ spec_regex_accepts "ééé" = false := by
  decide

/-- Claim C8 (amended): on ASCII strings the validator coincides with the
specification's regex (at least 3 characters, leading letter, letters, digits,
underscore, hyphen), and the three register examples behave as claimed; on non-ASCII
input the validator is strictly more permissive (see the counterexample). -/
theorem C8_group_id_format (s : String) (h : ∀ c ∈ s.data, c.toNat < 128) :
    is_valid_group_id s = spec_regex_accepts s
    ∧ is_valid_group_id "ab" = false
    ∧ is_valid_group_id "1abc" = false
    ∧ is_valid_group_id "abc-1_2" = true
    ∧ (register_group [] "ab" "too short" "t").2.isOk = false
    ∧ (register_group [] "1abc" "leading digit" "t").2.isOk = false
    ∧ (register_group [] "abc-1_2" "fine" "t").2.isOk = true := by
  refine ⟨?_, by decide, by decide, by decide, by decide, by decide, by decide⟩
  unfold is_valid_group_id spec_regex_accepts
  cases hd : s.data with
  | nil => rfl
  | cons c rest =>
    have hc : c.toNat < 128 := h c (hd ▸ List.mem_cons_self c rest)
    have hrest : ∀ d ∈ rest, d.toNat < 128 := fun d hdm =>
      h d (hd ▸ List.mem_cons_of_mem c hdm)
    have hall : rest.all (fun d => pyIsAlnum d || d == '_' || d == '-') =
        rest.all (fun d => d.isUpper || d.isLower || d.isDigit || d == '_' || d == '-') :=
      all_congr_mem rest _ _ (fun d hdm => charClass_ascii d (hrest d hdm))
    by_cases hlen : (c :: rest).length < 3
    · have h2 : ¬ (2 ≤ rest.length) := by
        simp only [List.length_cons] at hlen; omega
      simp [hlen, h2]
    · have h2 : 2 ≤ rest.length := by
        simp only [List.length_cons] at hlen; omega
      simp only [if_neg hlen, List.all_cons, pyIsAlpha_ascii c hc, h2,
        decide_eq_true_eq, hall, decide_True, Bool.true_and, Bool.and_true]
      cases hca : c.isAlpha with
      | false =>
        have : (c.isUpper || c.isLower) = false := by
          simpa [Char.isAlpha] using hca
        simp [this]
      | true =>
        have h3 : (c.isUpper || c.isLower) = true := by
          simpa [Char.isAlpha] using hca
        have h4 : (pyIsAlnum c || c == '_' || c == '-') = true := by
          simp [pyIsAlnum, pyIsAlpha_ascii c hc, hca]
        rw [h3, h4]
        simp [Bool.and_comm]

/-- Witness for C8_group_id_format on a concrete ASCII string. -/
theorem C8_group_id_format_witness :
    is_valid_group_id "abc" = spec_regex_accepts "abc"
    ∧ is_valid_group_id "ab" = false
    ∧ is_valid_group_id "1abc" = false
    ∧ is_valid_group_id "abc-1_2" = true
    ∧ (register_group [] "ab" "too short" "t").2.isOk = false
    ∧ (register_group [] "1abc" "leading digit" "t").2.isOk = false
    ∧ (register_group [] "abc-1_2" "fine" "t").2.isOk = true :=
  C8_group_id_format "abc" (by decide)

/-- Claim C9: for every reserved id, register_group and delete_group both raise
before touching the store, so the call reports an error and the registry rows are
exactly as before. -/
theorem C9_protected_groups_immutable (gid : String) (h : gid ∈ PROTECTED_GROUPS)
    (reg : Registry) (description creator : String) :
    register_group reg gid description creator =
      (reg, .error ("Cannot modify protected group: " ++ gid))
    ∧ delete_group reg gid =
      (reg, .error ("Cannot delete protected group: " ++ gid)) := by
  fin_cases h <;>
    exact ⟨by simp +decide [register_group], by simp +decide [delete_group]⟩

/-- Witness for C9_protected_groups_immutable at the reserved id system over a
one-row registry. -/
theorem C9_protected_groups_immutable_witness :
    register_group [⟨"notes", "d", "u"⟩] "system" "x" "y" =
      ([⟨"notes", "d", "u"⟩], .error ("Cannot modify protected group: " ++ "system"))
    ∧ delete_group [⟨"notes", "d", "u"⟩] "system" =
      ([⟨"notes", "d", "u"⟩], .error ("Cannot delete protected group: " ++ "system")) :=
  C9_protected_groups_immutable "system" (by decide) [⟨"notes", "d", "u"⟩] "x" "y"

/-- Claim C4: starting the same episode identity twice on a fresh telemetry store
leaves exactly one upserted log entry with attempt_count 2, and two fresh tracking
rows (attempt numbers 1 and 2), each linked to that log entry by its episode_name. -/
theorem C4_idempotent_start_upsert (n orig gid : String) :
    ((record_episode_start dbOk
        (record_episode_start dbOk initPState n orig gid).1 n orig gid).1).store.logs =
      [⟨n, orig, gid, "started", 2⟩]
    ∧ ((record_episode_start dbOk
        (record_episode_start dbOk initPState n orig gid).1 n orig gid).1).store.trackings =
      [⟨n, 1, "in_progress"⟩, ⟨n, 2, "in_progress"⟩] := by
  simp [record_episode_start, runQuery, sessionRun, dbOk, initPState, initStore, findLog]

/-- The event trace and the raised/completed outcome of the retry loop are exactly
its pure projection loopSpec: they never depend on the telemetry store or on the
telemetry database's behaviour. -/
lemma processLoop_proj (tel : Bool) (db : DbOracle) (f : Nat) (j : Job) :
    ∀ (rem r : Nat) (s : PState),
      (processLoop tel db f j rem r s).1 = (loopSpec tel f j rem r).1
      ∧ (processLoop tel db f j rem r s).2.2 = (loopSpec tel f j rem r).2 := by
  intro rem
  induction rem with
  | zero => intro r s; exact ⟨rfl, rfl⟩
  | succ rem ih =>
    intro r s
    have e1 : ∀ s, (processLoop tel db f j rem (r + 1) s).1 =
        (loopSpec tel f j rem (r + 1)).1 := fun s => (ih (r + 1) s).1
    have e2 : ∀ s, (processLoop tel db f j rem (r + 1) s).2.2 =
        (loopSpec tel f j rem (r + 1)).2 := fun s => (ih (r + 1) s).2
    by_cases h1 : r < f
    · by_cases h2 : 5 ≤ r + 1
      · constructor <;> simp [processLoop, loopSpec, h1, h2]
      · constructor <;> simp [processLoop, loopSpec, h1, h2, e1, e2]
    · constructor <;> simp [processLoop, loopSpec, h1]

/-- engineSeq distributes over concatenation. -/
lemma engineSeq_append (a b : List Event) :
    engineSeq (a ++ b) = engineSeq a ++ engineSeq b := by
  simp [engineSeq]

/-- The optional start-call event contributes no engine hand-off. -/
lemma engineSeq_start_ite (tel : Bool) (n : String) :
    engineSeq (if tel then [Event.telStart n] else []) = [] := by
  cases tel <;> simp [engineSeq]

/-- Engine hand-offs of the retry loop from retry_count r: one per remaining failure
plus the success, capped by the 5-attempt budget. -/
lemma loopSpec_engineSeq (tel : Bool) (f : Nat) (j : Job) :
    ∀ (rem r : Nat), r + rem = 5 → r ≤ f →
      engineSeq (loopSpec tel f j rem r).1 =
        List.replicate (min (f + 1) 5 - r) j.name := by
  intro rem
  induction rem with
  | zero =>
    intro r h5 hf
    have hr : r = 5 := by omega
    subst hr
    have hm : min (f + 1) 5 - 5 = 0 := by omega
    simp [loopSpec, engineSeq, hm]
  | succ rem ih =>
    intro r h5 hf
    by_cases h1 : r < f
    · by_cases h2 : 5 ≤ r + 1
      · have hm : min (f + 1) 5 - r = 1 := by omega
        rw [hm]
        cases tel <;> simp [loopSpec, engineSeq, h1, h2]
      · have hrec := ih (r + 1) (by omega) (by omega)
        have hm : min (f + 1) 5 - r = (min (f + 1) 5 - (r + 1)) + 1 := by omega
        rw [hm]
        simp only [engineSeq] at hrec
        cases tel <;>
          simp [loopSpec, engineSeq, h1, h2, List.filterMap_append, hrec,
            List.replicate_succ]
    · have hm : min (f + 1) 5 - r = 1 := by omega
      rw [hm]
      cases tel <;> simp [loopSpec, engineSeq, h1]

/-- Engine hand-offs of one processed job: attemptTally of its failure count, all for
this job, regardless of telemetry configuration, store or database. -/
lemma process_episode_svc_engineSeq (tel : Bool) (db : DbOracle) (f : Nat)
    (gid : String) (j : Job) (s : PState) :
    engineSeq (process_episode_svc tel db f gid j s).1 =
      List.replicate (attemptTally f) j.name := by
  have hp := (processLoop_proj tel db f j 5 0
    (if tel then (record_episode_start db s j.name j.name gid).1 else s)).1
  have hs := loopSpec_engineSeq tel f j 5 0 rfl (Nat.zero_le f)
  have hmin : min (f + 1) 5 - 0 = attemptTally f := by simp [attemptTally]
  rw [hmin] at hs
  unfold process_episode_svc
  simp only [engineSeq_append, engineSeq_start_ite, List.nil_append]
  rw [hp, hs]

/-- Engine hand-offs of the worker's per-job body equal those of the processor: the
worker's catch only adds a log event. -/
lemma worker_handle_job_engineSeq (tel : Bool) (db : DbOracle) (f : Nat)
    (gid : String) (j : Job) (s : PState) :
    engineSeq (worker_handle_job tel db f gid j s).1 =
      List.replicate (attemptTally f) j.name := by
  unfold worker_handle_job
  cases hok : (process_episode_svc tel db f gid j s).2.2
  · simp only [hok, Bool.false_eq_true, if_false, engineSeq_append]
    rw [process_episode_svc_engineSeq]
    simp [engineSeq]
  · simp only [hok, if_true]
    exact process_episode_svc_engineSeq tel db f gid j s

/-- The worker's engine hand-off sequence over the enqueued jobs is jobSeq: each
job's attempts, contiguous, in queue order. -/
lemma worker_drain_engineSeq (tel : Bool) (db : DbOracle) (f : Job → Nat)
    (gid : String) :
    ∀ (jobs : List Job) (s : PState),
      engineSeq (worker_drain tel db f gid jobs s).1 = jobSeq f jobs := by
  intro jobs
  induction jobs with
  | nil => intro s; simp [worker_drain, jobSeq, engineSeq]
  | cons j rest ih =>
    intro s
    simp only [worker_drain]
    rw [engineSeq_append, worker_handle_job_engineSeq, ih]
    simp [jobSeq]

/-- Claim C1: per-group FIFO dispatch. For jobs J1 before J2 in the queue, every
engine hand-off (including retries) of everything ahead of J1 comes first, then all
of J1's attempts until success or exhaustion, then everything between, then all of
J2's attempts: J1 is handed to the engine before J2, and J1's retries finish before
the next job is dequeued. -/
theorem C1_fifo_per_group (tel : Bool) (db : DbOracle) (engineFails : Job → Nat)
    (group_id : String) (pre mid post : List Job) (J1 J2 : Job) (s : PState) :
    engineSeq (worker_drain tel db engineFails group_id
        (pre ++ J1 :: (mid ++ J2 :: post)) s).1 =
      jobSeq engineFails pre
        ++ (List.replicate (attemptTally (engineFails J1)) J1.name
        ++ (jobSeq engineFails mid
        ++ (List.replicate (attemptTally (engineFails J2)) J2.name
        ++ jobSeq engineFails post))) := by
  rw [worker_drain_engineSeq]
  simp [jobSeq]

/-- Claim C5: telemetry is best-effort. A failing telemetry database makes run_query
swallow the exception and return None with the store untouched; all four write
operations (start, step, error, completion) leave the store unchanged under a failing
database and raise nothing (their Lean type is total because run_query catches every
driver exception); and the processor's event trace — engine hand-offs included — and
its retry/success outcome are identical under any two database behaviours, stores and
group ids. -/
theorem C5_telemetry_best_effort :
    (∀ (ρ : Type) (s : PState) (eff : TelemetryStore → TelemetryStore × ρ),
        runQuery dbDown s eff = (⟨s.store, s.clock + 1⟩, none))
    ∧ (∀ s n o g, ((record_episode_start dbDown s n o g).1).store = s.store)
    ∧ (∀ s n st stat d, ((record_processing_step dbDown s n st stat d).1).store = s.store)
    ∧ (∀ s n st t m c, ((record_error dbDown s n st t m c).1).store = s.store)
    ∧ (∀ s n stat, ((record_episode_completion dbDown s n stat).1).store = s.store)
    ∧ (∀ (tel : Bool) (db db' : DbOracle) (f : Nat) (g g' : String) (j : Job)
        (s s' : PState),
        (process_episode_svc tel db f g j s).1 = (process_episode_svc tel db' f g' j s').1
        ∧ (process_episode_svc tel db f g j s).2.2 =
            (process_episode_svc tel db' f g' j s').2.2) := by
  refine ⟨?_, ?_, ?_, ?_, ?_, ?_⟩
  · intro ρ s eff; simp [runQuery, sessionRun, dbDown]
  · intro s n o g; simp [record_episode_start, runQuery, sessionRun, dbDown]
  · intro s n st stat d
    simp [record_processing_step, runQuery, sessionRun, dbDown]
  · intro s n st t m c
    simp [record_error, runQuery, sessionRun, dbDown]
  · intro s n stat
    simp [record_episode_completion, runQuery, sessionRun, dbDown]
  · intro tel db db' f g g' j s s'
    have pa := processLoop_proj tel db f j 5 0
      (if tel then (record_episode_start db s j.name j.name g).1 else s)
    have pb := processLoop_proj tel db' f j 5 0
      (if tel then (record_episode_start db' s' j.name j.name g').1 else s')
    unfold process_episode_svc
    constructor
    · simp only []
      rw [pa.1, pb.1]
    · simp only []
      rw [pa.2, pb.2]

/-- Two failure counts that agree on every attempt index below the budget drive the
retry loop identically. -/
lemma processLoop_fails_congr (tel : Bool) (db : DbOracle) (j : Job) (f f' : Nat)
    (hagree : ∀ t, t < 5 → (t < f ↔ t < f')) :
    ∀ (rem r : Nat), r + rem = 5 → ∀ s,
      processLoop tel db f j rem r s = processLoop tel db f' j rem r s := by
  intro rem
  induction rem with
  | zero => intro r h s; rfl
  | succ rem ih =>
    intro r h s
    have hiff := hagree r (by omega)
    by_cases h1 : r < f
    · have h1' : r < f' := hiff.mp h1
      by_cases h2 : 5 ≤ r + 1
      · simp [processLoop, h1, h1', h2]
      · have hr := ih (r + 1) (by omega)
        simp [processLoop, h1, h1', h2, hr]
    · have h1' : ¬ r < f' := fun hc => h1 (hiff.mpr hc)
      simp [processLoop, h1, h1']

set_option maxRecDepth 8000 in
/-- Claim C3: terminal-failure contract. With a telemetry recorder configured and a
healthy telemetry store, a job whose engine call fails on all attempts yields exactly
the five error rows — one per attempt, carrying retry contexts 0 through 4 — and its
single log entry is closed with status failed; exactly one completion call is issued
and it is the failed one; the processor re-raises (outcome false); and the worker-loop
caller observes the propagated failure and logs it after the processor's trace. -/
theorem C3_terminal_failure_contract (engineFails : Nat) (group_id : String) (j : Job)
    (h : 5 ≤ engineFails) :
    ((process_episode_svc true dbOk engineFails group_id j initPState).2.1).store.errors =
      [⟨j.name, "ingestion", "Exception", "engine failure", 0⟩,
       ⟨j.name, "ingestion", "Exception", "engine failure", 1⟩,
       ⟨j.name, "ingestion", "Exception", "engine failure", 2⟩,
       ⟨j.name, "ingestion", "Exception", "engine failure", 3⟩,
       ⟨j.name, "ingestion", "Exception", "engine failure", 4⟩]
    ∧ ((process_episode_svc true dbOk engineFails group_id j initPState).2.1).store.logs =
      [⟨j.name, j.name, group_id, "failed", 1⟩]
    ∧ (process_episode_svc true dbOk engineFails group_id j initPState).1.filter
        (fun e => match e with | Event.telCompletion _ _ => true | _ => false) =
      [Event.telCompletion j.name "failed"]
    ∧ (process_episode_svc true dbOk engineFails group_id j initPState).2.2 = false
    ∧ (worker_handle_job true dbOk engineFails group_id j initPState).1 =
      (process_episode_svc true dbOk engineFails group_id j initPState).1
        ++ [Event.workerLogged j.name] := by
  have hcongr : process_episode_svc true dbOk engineFails group_id j initPState =
      process_episode_svc true dbOk 5 group_id j initPState := by
    simp only [process_episode_svc]
    rw [processLoop_fails_congr true dbOk j engineFails 5
      (fun t ht => by omega) 5 0 rfl]
  rw [hcongr]
  refine ⟨?_, ?_, ?_, ?_, ?_⟩
  case refine_5 =>
    simp only [worker_handle_job, hcongr]
    simp [process_episode_svc, processLoop,
      record_episode_start, record_processing_step, record_error,
      record_episode_completion, runQuery, sessionRun, dbOk, findLog,
      initPState, initStore]
  all_goals
    simp [process_episode_svc, processLoop,
      record_episode_start, record_processing_step, record_error,
      record_episode_completion, runQuery, sessionRun, dbOk, findLog,
      initPState, initStore]

/-- Witness for C3_terminal_failure_contract at failure count 5 and a concrete job. -/
theorem C3_terminal_failure_contract_witness :
    5 ≤ 5
    ∧ (((process_episode_svc true dbOk 5 "demo" demoJob initPState).2.1).store.errors =
        [⟨demoJob.name, "ingestion", "Exception", "engine failure", 0⟩,
         ⟨demoJob.name, "ingestion", "Exception", "engine failure", 1⟩,
         ⟨demoJob.name, "ingestion", "Exception", "engine failure", 2⟩,
         ⟨demoJob.name, "ingestion", "Exception", "engine failure", 3⟩,
         ⟨demoJob.name, "ingestion", "Exception", "engine failure", 4⟩]
      ∧ ((process_episode_svc true dbOk 5 "demo" demoJob initPState).2.1).store.logs =
          [⟨demoJob.name, demoJob.name, "demo", "failed", 1⟩]
      ∧ (process_episode_svc true dbOk 5 "demo" demoJob initPState).1.filter
          (fun e => match e with | Event.telCompletion _ _ => true | _ => false) =
        [Event.telCompletion demoJob.name "failed"]
      ∧ (process_episode_svc true dbOk 5 "demo" demoJob initPState).2.2 = false
      ∧ (worker_handle_job true dbOk 5 "demo" demoJob initPState).1 =
        (process_episode_svc true dbOk 5 "demo" demoJob initPState).1
          ++ [Event.workerLogged demoJob.name]) :=
  ⟨by decide, C3_terminal_failure_contract 5 "demo" demoJob (by decide)⟩

/-- Creating the queue for an unseen group makes its (empty) queue visible. -/
lemma lookupQueue_ensure (qs : List (String × List Job)) (g : String)
    (h : lookupQueue qs g = none) : lookupQueue (qs ++ [(g, [])]) g = some [] := by
  induction qs with
  | nil => simp [lookupQueue]
  | cons q rest ih =>
    by_cases hq : q.1 = g
    · simp [lookupQueue, hq] at h
    · simp only [lookupQueue, if_neg hq] at h
      simpa [lookupQueue, hq] using ih h

/-- Creating the queue for one group leaves every other group's lookup unchanged. -/
lemma lookupQueue_ensure_other (qs : List (String × List Job)) (g g' : String)
    (hne : g' ≠ g) : lookupQueue (qs ++ [(g, [])]) g' = lookupQueue qs g' := by
  have hgg' : ¬ g = g' := fun hc => hne hc.symm
  induction qs with
  | nil => simp [lookupQueue, hgg']
  | cons q rest ih =>
    by_cases hq : q.1 = g'
    · simp [lookupQueue, hq]
    · simpa [lookupQueue, hq] using ih

/-- Enqueueing appends to the group's own queue. -/
lemma lookupQueue_putQueue_self (qs : List (String × List Job)) (g : String) (j : Job) :
    lookupQueue (putQueue qs g j) g = (lookupQueue qs g).map (fun l => l ++ [j]) := by
  induction qs with
  | nil => simp [lookupQueue, putQueue]
  | cons q rest ih =>
    by_cases hq : q.1 = g
    · simp [lookupQueue, putQueue, hq]
    · simpa [lookupQueue, putQueue, hq] using ih

/-- Enqueueing onto one group's queue leaves every other group's queue unchanged. -/
lemma lookupQueue_putQueue_other (qs : List (String × List Job)) (g g' : String)
    (j : Job) (hne : g' ≠ g) :
    lookupQueue (putQueue qs g j) g' = lookupQueue qs g' := by
  induction qs with
  | nil => simp [lookupQueue, putQueue]
  | cons q rest ih =>
    have hgg' : ¬ g = g' := fun hc => hne hc.symm
    by_cases hq : q.1 = g
    · simpa [lookupQueue, putQueue, hq, hgg'] using ih
    · by_cases hq' : q.1 = g'
      · simp [lookupQueue, putQueue, hq, hq', hne]
      · simpa [lookupQueue, putQueue, hq, hq'] using ih

/-- Registering an unseen group makes it found afterwards. -/
lemma findGroup_append_self (reg : Registry) (gid d c : String) :
    (findGroup (reg ++ [⟨gid, d, c⟩]) gid).isSome = true := by
  induction reg with
  | nil => simp [findGroup]
  | cons g rest ih =>
    by_cases hg : g.group_id = gid
    · simp [findGroup, hg]
    · simpa [findGroup, hg] using ih

/-- Concrete staged pending episode for the C7 statements. -/
def c7Pending : PendingEpisode :=
  { name := "ep", episode_body := "body", source := "text", source_description := "",
    created_at := 0, expires_at := 10, uuid := "u1" }

/-- Server state holding exactly that staged record. -/
def c7State : ServerState :=
  { pending := [("p1", c7Pending)], queues := [], workers := [], registry := [] }

/-- Claim C7 counterexample: the reserved id admin passes the tool's format
validation, yet confirming with it fails — register_group raises inside the tool, the
caught error is returned, nothing is enqueued, and the pending record survives —
refuting the claim that every confirm with a valid group id enqueues one job and
deletes the pending record. -/
theorem C7_counterexample :
    is_valid_group_id "admin" = true
    ∧ ((continue_episode_ingestion 0 c7State "p1" "admin").1).isError = true
    ∧ ((continue_episode_ingestion 0 c7State "p1" "admin").2).pending =
        [("p1", c7Pending)]
    ∧ lookupQueue ((continue_episode_ingestion 0 c7State "p1" "admin").2).queues
        "admin" = some [] := by
  decide

/-- Claim C7 (amended): for a staged, unexpired pending record, confirm with an
invalid-format group id reports a validation error and leaves the whole state — the
pending record included — untouched; confirm with a valid, non-reserved group id
succeeds, appends exactly one job (built from the pending record) to that group's
queue, leaves every other queue unchanged, leaves the group registered, and deletes
the pending record. A valid-format reserved id instead fails as in the
counterexample. -/
theorem C7_confirm_two_phase (now : Nat) (st : ServerState)
    (pending_id group_id : String) (p : PendingEpisode)
    (hfind : lookupPending st.pending pending_id = some p)
    (hexp : ¬ p.expires_at < now) :
    (is_valid_group_id group_id = false →
       ((continue_episode_ingestion now st pending_id group_id).1).isError = true
       ∧ (continue_episode_ingestion now st pending_id group_id).2 = st)
    ∧ (is_valid_group_id group_id = true → is_protected_group group_id = false →
       ((continue_episode_ingestion now st pending_id group_id).1).isError = false
       ∧ lookupQueue ((continue_episode_ingestion now st pending_id group_id).2).queues
           group_id = some ((lookupQueue st.queues group_id).getD [] ++ [pendingJob p])
       ∧ (∀ g', g' ≠ group_id →
            lookupQueue ((continue_episode_ingestion now st pending_id group_id).2).queues
              g' = lookupQueue st.queues g')
       ∧ (findGroup ((continue_episode_ingestion now st pending_id group_id).2).registry
            group_id).isSome = true
       ∧ ((continue_episode_ingestion now st pending_id group_id).2).pending =
           st.pending.filter (fun r => r.1 ≠ pending_id)) := by
  have hget : get_pending_episode now st pending_id = (some p, st) := by
    unfold get_pending_episode
    rw [hfind]
    simp [hexp]
  constructor
  · intro hv
    simp [continue_episode_ingestion, hget, hv, ToolResponse.isError]
  · intro hv hprot
    cases hqq : lookupQueue st.queues group_id with
    | some l =>
      cases hfg : findGroup st.registry group_id with
      | some r =>
        simp only [continue_episode_ingestion, hget]
        simp [hv, hqq, hfg, ToolResponse.isError, lookupQueue_putQueue_self]
        exact fun g' hne => lookupQueue_putQueue_other st.queues group_id g' _ hne
      | none =>
        simp only [continue_episode_ingestion, hget]
        simp [hv, hqq, hfg, hprot, register_group, ToolResponse.isError,
          lookupQueue_putQueue_self, findGroup_append_self]
        exact fun g' hne => lookupQueue_putQueue_other st.queues group_id g' _ hne
    | none =>
      cases hfg : findGroup st.registry group_id with
      | some r =>
        simp only [continue_episode_ingestion, hget]
        simp [hv, hqq, hfg, ToolResponse.isError, lookupQueue_putQueue_self,
          lookupQueue_ensure st.queues group_id hqq]
        intro g' hne
        rw [lookupQueue_putQueue_other _ _ _ _ hne,
          lookupQueue_ensure_other st.queues group_id g' hne]
      | none =>
        simp only [continue_episode_ingestion, hget]
        simp [hv, hqq, hfg, hprot, register_group, ToolResponse.isError,
          findGroup_append_self, lookupQueue_putQueue_self,
          lookupQueue_ensure st.queues group_id hqq]
        intro g' hne
        rw [lookupQueue_putQueue_other _ _ _ _ hne,
          lookupQueue_ensure_other st.queues group_id g' hne]

/-- Witness for C7_confirm_two_phase at the staged record of c7State, the invalid id
"bad id!" and the valid unreserved id "notes". -/
theorem C7_confirm_two_phase_witness :
    (is_valid_group_id "notes" = false →
       ((continue_episode_ingestion 0 c7State "p1" "notes").1).isError = true
       ∧ (continue_episode_ingestion 0 c7State "p1" "notes").2 = c7State)
    ∧ (is_valid_group_id "notes" = true → is_protected_group "notes" = false →
       ((continue_episode_ingestion 0 c7State "p1" "notes").1).isError = false
       ∧ lookupQueue ((continue_episode_ingestion 0 c7State "p1" "notes").2).queues
           "notes" = some ((lookupQueue c7State.queues "notes").getD []
             ++ [pendingJob c7Pending])
       ∧ (∀ g', g' ≠ "notes" →
            lookupQueue ((continue_episode_ingestion 0 c7State "p1" "notes").2).queues
              g' = lookupQueue c7State.queues g')
       ∧ (findGroup ((continue_episode_ingestion 0 c7State "p1" "notes").2).registry
            "notes").isSome = true
       ∧ ((continue_episode_ingestion 0 c7State "p1" "notes").2).pending =
           c7State.pending.filter (fun r => r.1 ≠ "p1")) :=
  C7_confirm_two_phase 0 c7State "p1" "notes" c7Pending (by decide) (by decide)

/-- Insertion preserves length. -/
lemma length_insertDescBy {α : Type} (score : α → ℚ) (x : α) (l : List α) :
    (insertDescBy score x l).length = l.length + 1 := by
  induction l with
  | nil => rfl
  | cons a t ih =>
    by_cases h : score a < score x <;> simp [insertDescBy, h, ih]

/-- Sorting preserves length. -/
lemma length_sortDescBy {α : Type} (score : α → ℚ) (l : List α) :
    (sortDescBy score l).length = l.length := by
  induction l with
  | nil => rfl
  | cons a t ih =>
    simp only [sortDescBy, List.foldr_cons] at ih ⊢
    simp [length_insertDescBy, ih]

/-- Insertion preserves membership. -/
lemma mem_insertDescBy {α : Type} (score : α → ℚ) (x y : α) (l : List α) :
    y ∈ insertDescBy score x l ↔ y = x ∨ y ∈ l := by
  induction l with
  | nil => simp [insertDescBy]
  | cons a t ih =>
    by_cases h : score a < score x
    · simp [insertDescBy, h]
    · simp only [insertDescBy, if_neg h, List.mem_cons, ih]
      tauto

/-- Sorting preserves membership. -/
lemma mem_sortDescBy {α : Type} (score : α → ℚ) (y : α) (l : List α) :
    y ∈ sortDescBy score l ↔ y ∈ l := by
  induction l with
  | nil => simp [sortDescBy]
  | cons a t ih =>
    simp only [sortDescBy, List.foldr_cons] at ih ⊢
    rw [mem_insertDescBy]
    simp [ih]

/-- An empty sort comes from an empty list. -/
lemma sortDescBy_eq_nil {α : Type} (score : α → ℚ) (l : List α)
    (h : sortDescBy score l = []) : l = [] := by
  have hl := length_sortDescBy score l
  rw [h] at hl
  exact List.length_eq_zero.mp hl.symm

/-- The head of the descending sort carries a maximal score. -/
lemma sortDescBy_head_max {α : Type} (score : α → ℚ) :
    ∀ (l : List α) (hd : α) (tl : List α), sortDescBy score l = hd :: tl →
      ∀ x ∈ l, score x ≤ score hd := by
  intro l
  induction l with
  | nil => intro hd tl h; simp [sortDescBy] at h
  | cons a t ih =>
    intro hd tl h x hx
    rw [show sortDescBy score (a :: t) = insertDescBy score a (sortDescBy score t)
      from rfl] at h
    cases hst : sortDescBy score t with
    | nil =>
      have ht : t = [] := sortDescBy_eq_nil score t hst
      rw [hst] at h
      simp only [insertDescBy] at h
      cases h
      subst ht
      simp only [List.mem_singleton] at hx
      subst hx
      exact le_refl _
    | cons b s =>
      have hb := ih b s hst
      rw [hst] at h
      by_cases hcmp : score b < score a
      · rw [show insertDescBy score a (b :: s) = a :: b :: s
          from by simp [insertDescBy, hcmp]] at h
        cases h
        rcases List.mem_cons.mp hx with rfl | hxt
        · exact le_refl _
        · exact le_trans (hb x hxt) (le_of_lt hcmp)
      · rw [show insertDescBy score a (b :: s) = b :: insertDescBy score a s
          from by simp [insertDescBy, hcmp]] at h
        cases h
        rcases List.mem_cons.mp hx with rfl | hxt
        · exact le_of_not_lt hcmp
        · exact hb x hxt

/-- First-occurrence deduplication preserves membership. -/
lemma mem_dedupFirst (g : String) : ∀ (l : List String), g ∈ dedupFirst l ↔ g ∈ l := by
  intro l
  induction l using dedupFirst.induct with
  | case1 => simp [dedupFirst]
  | case2 g0 rest ih =>
    rw [dedupFirst]
    by_cases hg : g = g0
    · subst hg; simp
    · simp only [List.mem_cons, ih, List.mem_filter, hg, false_or]
      constructor
      · rintro ⟨hm, _⟩; exact hm
      · intro hm; exact ⟨hm, by simp [hg]⟩

/-- A prior episode above the floor with a partition id survives the whole match
pipeline when no truncation occurs (at most 100 episodes). -/
lemma mem_routedMatches (eps : List EpRec) (e : EpRec) (hlen : eps.length ≤ 100)
    (he : e ∈ eps) (hs : MIN_SIMILARITY_SCORE < e.similarity) (hg : e.group_id ≠ "") :
    e ∈ routedMatches eps := by
  unfold routedMatches queryMatches
  have h1 : e ∈ eps.filter (fun x => MIN_SIMILARITY_SCORE < x.similarity) :=
    List.mem_filter.mpr ⟨he, by simp [hs]⟩
  have h2 : e ∈ sortDescBy (fun x => x.similarity)
      (eps.filter (fun x => MIN_SIMILARITY_SCORE < x.similarity)) :=
    (mem_sortDescBy _ _ _).mpr h1
  have hlen2 : (sortDescBy (fun x => x.similarity)
      (eps.filter (fun x => MIN_SIMILARITY_SCORE < x.similarity))).length ≤ 100 := by
    rw [length_sortDescBy]
    exact le_trans (List.length_filter_le _ _) hlen
  rw [List.take_of_length_le hlen2]
  exact List.mem_filter.mpr ⟨h2, by simp [hg]⟩

/-- Every surviving match has a strictly positive similarity (it cleared the 0.5
floor in the query). -/
lemma routedMatches_pos (eps : List EpRec) (e : EpRec) (he : e ∈ routedMatches eps) :
    0 < e.similarity := by
  unfold routedMatches queryMatches at he
  have h1 := List.mem_of_mem_filter he
  have h2 := List.mem_of_mem_take h1
  have h3 := (mem_sortDescBy _ _ _).mp h2
  have h4 := List.of_mem_filter h3
  have h5 : MIN_SIMILARITY_SCORE < e.similarity := by simpa using h4
  have h6 : (0 : ℚ) < MIN_SIMILARITY_SCORE := by norm_num [MIN_SIMILARITY_SCORE]
  exact lt_trans h6 h5

/-- Aggregate partition scores are nonnegative. -/
lemma group_score_nonneg (eps : List EpRec) (g : String) : 0 ≤ group_score eps g := by
  unfold group_score
  apply List.sum_nonneg
  intro x hx
  obtain ⟨e, he, rfl⟩ := List.mem_map.mp hx
  exact le_of_lt (routedMatches_pos eps e (List.mem_of_mem_filter he))

/-- A partition with no surviving match has aggregate score zero. -/
lemma group_score_not_mem (eps : List EpRec) (g : String)
    (h : g ∉ (routedMatches eps).map (fun e => e.group_id)) : group_score eps g = 0 := by
  unfold group_score
  have hnil : (routedMatches eps).filter (fun e => e.group_id == g) = [] := by
    rw [List.filter_eq_nil_iff]
    intro a ha hc
    exact h (List.mem_map.mpr ⟨a, ha, by simpa using hc⟩)
  simp [hnil]

/-- At most MAX_RESULTS_PER_GROUP sample episodes are kept per partition. -/
lemma group_samples_length_le (eps : List EpRec) (g : String) :
    (group_samples eps g).length ≤ MAX_RESULTS_PER_GROUP := by
  unfold group_samples
  simp only [List.length_map, List.length_take]
  exact Nat.min_le_left _ _

/-- Claim C10: when some prior episode clears the similarity floor and carries a
partition id (and the match set is within the query's 100-row window), the router's
suggested partition has the greatest aggregate score — the sum of its matches'
similarities — over all partitions, the confidence equals exactly that aggregate
score, every reported partition carries at most 3 sample matches, and the operation
reads but never writes the store or the registry. -/
theorem C10_similarity_suggestion (reg : Registry) (eps : List EpRec)
    (name content : String) (th : ℚ) (r : EpRec)
    (hlen : eps.length ≤ 100) (hr : r ∈ eps)
    (hsim : MIN_SIMILARITY_SCORE < r.similarity) (hgid : r.group_id ≠ "") :
    (∀ g : String, group_score eps g ≤
        group_score eps (find_similar_episodes reg eps name content th).suggested_group_id)
    ∧ (find_similar_episodes reg eps name content th).confidence =
        group_score eps (find_similar_episodes reg eps name content th).suggested_group_id
    ∧ (∀ e ∈ (find_similar_episodes reg eps name content th).similar_groups,
        e.sample_episodes.length ≤ MAX_RESULTS_PER_GROUP)
    ∧ find_similar_episodes_st reg eps name content th =
        (find_similar_episodes reg eps name content th, reg, eps) := by
  have hmemr : r ∈ routedMatches eps := mem_routedMatches eps r hlen hr hsim hgid
  have hkey : r.group_id ∈ dedupFirst ((routedMatches eps).map (fun e => e.group_id)) :=
    (mem_dedupFirst _ _).mpr (List.mem_map.mpr ⟨r, hmemr, rfl⟩)
  obtain ⟨hd, tl, hsort⟩ : ∃ hd tl, sorted_groups eps = hd :: tl := by
    cases hs : sorted_groups eps with
    | cons a b => exact ⟨a, b, rfl⟩
    | nil =>
      exfalso
      unfold sorted_groups at hs
      have hmap := sortDescBy_eq_nil _ _ hs
      have hded := List.map_eq_nil_iff.mp hmap
      rw [hded] at hkey
      simp at hkey
  have hsortU := hsort
  unfold sorted_groups at hsortU
  have hmax : ∀ x ∈ (dedupFirst ((routedMatches eps).map (fun e => e.group_id))).map
      (fun g => (g, group_score eps g)), x.2 ≤ hd.2 :=
    sortDescBy_head_max (fun p => p.2) _ hd tl hsortU
  have hhdmem : hd ∈ sorted_groups eps := by rw [hsort]; exact List.mem_cons_self _ _
  obtain ⟨gh, hghmem, hhd⟩ : ∃ gh, gh ∈ dedupFirst
      ((routedMatches eps).map (fun e => e.group_id))
      ∧ hd = (gh, group_score eps gh) := by
    unfold sorted_groups at hhdmem
    have := (mem_sortDescBy _ _ _).mp hhdmem
    obtain ⟨gh, hgh, heq⟩ := List.mem_map.mp this
    exact ⟨gh, hgh, heq.symm⟩
  subst hhd
  have hgroups : similar_groups reg eps =
      ⟨gh, group_score eps gh, group_description reg gh, group_samples eps gh⟩ ::
        (tl.take 4).map (fun p =>
          ⟨p.1, p.2, group_description reg p.1, group_samples eps p.1⟩) := by
    unfold similar_groups
    rw [hsort]
    simp [MAX_GROUPS]
  have hsugg : (find_similar_episodes reg eps name content th).suggested_group_id = gh := by
    unfold find_similar_episodes
    rw [hgroups]
  have hconf : (find_similar_episodes reg eps name content th).confidence =
      group_score eps gh := by
    unfold find_similar_episodes
    rw [hgroups]
  refine ⟨?_, ?_, ?_, rfl⟩
  · intro g
    rw [hsugg]
    by_cases hg : g ∈ dedupFirst ((routedMatches eps).map (fun e => e.group_id))
    · have := hmax (g, group_score eps g) (List.mem_map.mpr ⟨g, hg, rfl⟩)
      simpa using this
    · have hnot : g ∉ (routedMatches eps).map (fun e => e.group_id) :=
        fun hc => hg ((mem_dedupFirst _ _).mpr hc)
      rw [group_score_not_mem eps g hnot]
      exact group_score_nonneg eps gh
  · rw [hsugg, hconf]
  · intro e he
    have hsg : (find_similar_episodes reg eps name content th).similar_groups =
        similar_groups reg eps := by
      unfold find_similar_episodes
      rw [hgroups]
    rw [hsg, hgroups] at he
    rcases List.mem_cons.mp he with rfl | hm
    · exact group_samples_length_le eps gh
    · obtain ⟨p, _, rfl⟩ := List.mem_map.mp hm
      exact group_samples_length_le eps p.1

/-- Five prior episodes, all in the partition notes, all above the similarity floor
(the specification's scenario). -/
def c10Eps : List EpRec :=
  [⟨"n1", "c1", "notes", 9/10⟩, ⟨"n2", "c2", "notes", 9/10⟩,
   ⟨"n3", "c3", "notes", 4/5⟩, ⟨"n4", "c4", "notes", 7/10⟩,
   ⟨"n5", "c5", "notes", 3/5⟩]

/-- Witness for C10_similarity_suggestion on the five-episode notes scenario. -/
theorem C10_similarity_suggestion_witness :
    group_score c10Eps "other" ≤
      group_score c10Eps
        (find_similar_episodes [] c10Eps "nm" "ct" (85/100)).suggested_group_id
    ∧ (find_similar_episodes [] c10Eps "nm" "ct" (85/100)).confidence =
      group_score c10Eps
        (find_similar_episodes [] c10Eps "nm" "ct" (85/100)).suggested_group_id
    ∧ find_similar_episodes_st [] c10Eps "nm" "ct" (85/100) =
      (find_similar_episodes [] c10Eps "nm" "ct" (85/100), [], c10Eps) :=
  have h := C10_similarity_suggestion [] c10Eps "nm" "ct" (85/100)
    ⟨"n1", "c1", "notes", 9/10⟩ (by norm_num [c10Eps])
    (List.Mem.head _) (by norm_num [MIN_SIMILARITY_SCORE]) (by decide)
  ⟨h.1 "other", h.2.1, h.2.2.2⟩
